import Mathlib

/-!
Verification development for the Peruquois project-management bot.

The development shallowly embeds the bot's core logic:
  * the similarity matcher (`find_similar_projects`, `_calculate_similarity_score`,
    `_fuzzy_match` from the Notion adapter),
  * the tiered keyword lookup (`find_project_by_keywords`),
  * the record-store operations (`update_project_status`, `add_notes_to_project`,
    `archive_project`, `create_project` with `_prepare_project_properties`),
  * the action handlers of the main bot class (`_handle_create_project`,
    `_handle_update_status`, `_handle_query_projects`, `_handle_clarify_intent`,
    `handle_callback_query`).

The record store is modelled as a list of parsed project records, keyed by the
opaque page `id` (the adapter patches pages at endpoint pages/<page-id>, and a
patch addressed to an id that no page carries fails, which the adapter reports
as `False`).  Network success of a mutating request is an explicit boolean
parameter.  Reads (`get_all_projects` inside the lookup helpers) are assumed to
succeed; their failure mode (empty list) is noted where relevant.

Python strings are modelled by `String`, `str.lower()` by `strLower`,
substring containment (`in`) by `pyIn`, whitespace `str.split()` by `pySplitWS`,
`str.title()` by `pyTitle`, and `None`-able values by `Option`.
-/

/-- Python substring test on lists of characters: does `needle` occur
contiguously inside `hay`? -/
def substrAux (needle : List Char) : List Char → Bool
  | [] => needle.isEmpty
  | c :: t => needle.isPrefixOf (c :: t) || substrAux needle t

/-- Python `needle in hay` for strings. -/
def pyIn (needle hay : String) : Bool :=
  substrAux needle.toList hay.toList

/-- Python `str.lower()` (character-wise lower-casing). -/
def strLower (s : String) : String :=
  String.mk (s.toList.map Char.toLower)

/-- Helper for `pySplitWS`: walk the characters, accumulating the current
word reversed. -/
def splitWSAux : List Char → List Char → List String
  | [], acc => if acc.isEmpty then [] else [String.mk acc.reverse]
  | c :: t, acc =>
    if c.isWhitespace then
      if acc.isEmpty then splitWSAux t []
      else String.mk acc.reverse :: splitWSAux t []
    else splitWSAux t (c :: acc)

/-- Python `str.split()` with no argument: split on whitespace runs, dropping
empty pieces. -/
def pySplitWS (s : String) : List String :=
  splitWSAux s.toList []

/-- Python `str.title()` (ASCII behaviour): the first letter of every
alphabetic run is upper-cased, the rest lower-cased. -/
def pyTitleAux : List Char → Bool → List Char
  | [], _ => []
  | c :: t, prevAlpha =>
    (if c.isAlpha then (if prevAlpha then c.toLower else c.toUpper) else c)
      :: pyTitleAux t c.isAlpha

/-- Python `str.title()` on a string. -/
def pyTitle (s : String) : String :=
  String.mk (pyTitleAux s.toList false)

/-- Python truthiness of an optional string (`None` and `""` are falsy). -/
def optTruthy (o : Option String) : Bool :=
  match o with
  | some s => !(s == "")
  | none => false

/-- A project record as parsed from a Notion page by
`_parse_project_from_page`: id, Name title, Type select, Status select,
Processed Notes rich text, Original Audio rich text, Tags multi-select.
Missing properties are parsed as empty strings / empty lists. -/
structure Project where
  id : String
  name : String
  type : String
  status : String
  notes : String
  original_audio : String
  tags : List String
deriving DecidableEq, Repr

/-- The `project_data` payload of an intent: optional fields, exactly the keys
read by `_prepare_project_properties` and the create handler. -/
structure ProjectData where
  name : Option String
  type : Option String
  status : Option String
  notes : Option String
  original_audio : Option String
  tags : Option (List String)
deriving DecidableEq, Repr

/-- The `update_data` dictionary passed to `add_notes_to_project`: each key is
optionally present. -/
structure UpdateData where
  original_audio : Option String
  additional_notes : Option String
  note_type : Option String
deriving DecidableEq, Repr

/-- The slice of an intent-analysis object used by the clarify/create flow. -/
structure Intent where
  search_keywords : String
  project_data : ProjectData
deriving DecidableEq, Repr

/-- The fixed table of domain synonyms from `_fuzzy_match`. -/
def variations : List (String × List String) :=
  [("dance", ["dancing", "dancer", "dances"]),
   ("course", ["courses", "class", "classes", "training"]),
   ("workshop", ["workshops", "session", "sessions"]),
   ("song", ["songs", "music", "track", "tracks"]),
   ("retreat", ["retreats", "gathering", "event"]),
   ("book", ["books", "writing", "text"]),
   ("album", ["albums", "collection", "compilation"])]

/-- `_fuzzy_match` from the Notion adapter: keyword vs. a word of the text in
either substring direction (when the contained side has length at least 3),
plus the bidirectional synonym table. -/
def fuzzyMatch (keyword text : String) : Bool :=
  let words := pySplitWS text
  (words.any fun word =>
      (decide (3 ≤ keyword.length) && pyIn keyword word)
        || (decide (3 ≤ word.length) && pyIn word keyword))
    || variations.any (fun bv =>
        (keyword == bv.1 && bv.2.any (fun v => pyIn v text))
          || (bv.2.contains keyword && pyIn bv.1 text))

/-- `_calculate_similarity_score`: sum over keywords of the weighted
contributions (10 name substring, 8 type substring, 6 joined-tags substring,
3 notes-or-audio substring, 5 fuzzy name, 4 fuzzy type).  All contributions
are integral, so the Python float accumulator is modelled by `Nat`. -/
def calculateSimilarityScore (project : Project) (keywords : List String) : Nat :=
  let name := strLower project.name
  let projectType := strLower project.type
  let notes := strLower project.notes
  let originalAudio := strLower project.original_audio
  let tags := project.tags.map strLower
  keywords.foldl
    (fun score kw0 =>
      let keyword := strLower kw0
      score
        + (if pyIn keyword name then 10 else 0)
        + (if pyIn keyword projectType then 8 else 0)
        + (if pyIn keyword (String.intercalate " " tags) then 6 else 0)
        + (if pyIn keyword notes || pyIn keyword originalAudio then 3 else 0)
        + (if fuzzyMatch keyword name then 5 else 0)
        + (if fuzzyMatch keyword projectType then 4 else 0))
    0

/-- The keyword list built by `find_similar_projects`:
`search_keywords.lower().split()`. -/
def keywordsOf (search_keywords : String) : List String :=
  pySplitWS (strLower search_keywords)

/-- The scored project list of `find_similar_projects`, in store order:
projects with positive score paired with their score. -/
def scoredCandidates (projects : List Project) (keywords : List String) :
    List (Project × Nat) :=
  projects.filterMap (fun p =>
    let s := calculateSimilarityScore p keywords
    if 0 < s then some (p, s) else none)

/-- Descending-score order used by the matcher's sort. -/
def scoreGE (a b : Project × Nat) : Prop := b.2 ≤ a.2

instance : DecidableRel scoreGE :=
  fun a b => inferInstanceAs (Decidable (b.2 ≤ a.2))

instance : IsTotal (Project × Nat) scoreGE :=
  ⟨fun a b => Nat.le_total b.2 a.2⟩

instance : IsTrans (Project × Nat) scoreGE :=
  ⟨fun _ _ _ h1 h2 => Nat.le_trans h2 h1⟩

/-- `find_similar_projects` from the Notion adapter.  Python's
`list.sort(key=..., reverse=True)` is a stable descending sort; it is rendered
by `List.insertionSort scoreGE`, which is proved below to be sorted, a
permutation, and stable on ties — the three properties that characterise the
Python sort's output uniquely. -/
def find_similar_projects (search_keywords : String) (projects : List Project)
    (limit : Nat) : List (Project × Nat) :=
  if projects.isEmpty then []
  else
    (List.insertionSort scoreGE
      (scoredCandidates projects (keywordsOf search_keywords))).take limit

/-- `find_project_by_keywords` from the Notion adapter: tiered lookup —
exact lowercased name, then name substring, then type substring, then notes
substring, each tier returning the first hit. -/
def find_project_by_keywords (keywords : String) (projects : List Project) :
    Option Project :=
  let kl := strLower keywords
  match projects.find? (fun p => strLower p.name == kl) with
  | some p => some p
  | none =>
    match projects.find? (fun p => pyIn kl (strLower p.name)) with
    | some p => some p
    | none =>
      match projects.find? (fun p => pyIn kl (strLower p.type)) with
      | some p => some p
      | none => projects.find? (fun p => pyIn kl (strLower p.notes))

/-- `update_project_status` from the Notion adapter: PATCH pages/<project_id>
setting the Status select.  The patch succeeds exactly when the request goes
through (`apiOk`) and a page with that id exists; on failure the adapter
returns `False` and the store is untouched. -/
def update_project_status (store : List Project) (project_id new_status : String)
    (apiOk : Bool) : List Project × Bool :=
  if apiOk && store.any (fun p => p.id == project_id) then
    (store.map (fun p => if p.id == project_id then { p with status := new_status } else p),
      true)
  else (store, false)

/-- `add_notes_to_project` from the Notion adapter: resolve the identifier by
the tiered keyword lookup, then patch Original Audio and/or Processed Notes,
each appended to the current content with its separator (`--- New Audio ---`
block, resp. blank line plus a `[timestamp] NoteType: text` segment).  With no
properties to update it returns success without patching. -/
def add_notes_to_project (store : List Project) (project_identifier : String)
    (ud : UpdateData) (ts : String) (apiOk : Bool) : List Project × Bool :=
  match find_project_by_keywords project_identifier store with
  | none => (store, false)
  | some project =>
    let newAudio : Option String :=
      match ud.original_audio with
      | some na =>
        some (if project.original_audio == "" then na
              else project.original_audio ++ "\n\n--- New Audio ---\n" ++ na)
      | none => none
    let newNotes : Option String :=
      match ud.additional_notes with
      | some an =>
        some (if project.notes == ""
              then "[" ++ ts ++ "] " ++ pyTitle (ud.note_type.getD "update") ++ ": " ++ an
              else project.notes ++ "\n\n"
                ++ ("[" ++ ts ++ "] " ++ pyTitle (ud.note_type.getD "update") ++ ": " ++ an))
      | none => none
    if newAudio.isNone && newNotes.isNone then (store, true)
    else if apiOk then
      (store.map (fun q =>
        if q.id == project.id then
          { q with original_audio := newAudio.getD q.original_audio,
                   notes := newNotes.getD q.notes }
        else q), true)
    else (store, false)

/-- `archive_project` from the Notion adapter: resolve the identifier, set the
status to Archived via a patch keyed by the resolved page id, and — only when
that patch succeeded and a reason was given — fire a follow-up note append
whose outcome is discarded; the returned flag is the status patch's outcome. -/
def archive_project (store : List Project) (ident reason ts : String)
    (apiStatusOk apiNotesOk : Bool) : List Project × Bool :=
  match find_project_by_keywords ident store with
  | none => (store, false)
  | some project =>
    let r1 := update_project_status store project.id "Archived" apiStatusOk
    if r1.2 && !(reason == "") then
      let r2 := add_notes_to_project r1.1 ident
        ⟨none, some ("Archived: " ++ reason), some "archive"⟩ ts apiNotesOk
      (r2.1, r1.2)
    else (r1.1, r1.2)

/-- Modelled from the spec: `get_projects_by_status` is called by the query
handler and the /active command but its definition is absent from the provided
Notion adapter file, which carries an explicit continuation marker after
`get_all_projects` showing the file was abridged.  Per the spec's action
table, it fetches the matching set from the store with a store-side status
filter. -/
def get_projects_by_status (store : List Project) (status : String) : List Project :=
  store.filter (fun p => p.status == status)

/-- Modelled from the spec: `get_projects_by_type` is called by the query
handler but its definition is absent from the provided (abridged) Notion
adapter file.  Per the spec's action table, it fetches the matching set from
the store with a store-side type filter. -/
def get_projects_by_type (store : List Project) (projectType : String) : List Project :=
  store.filter (fun p => p.type == projectType)

/-- The Notion page properties built by `_prepare_project_properties`: a
property is included exactly when the corresponding key is present in
`project_data` (Tags additionally only when non-empty). -/
structure NotionProperties where
  nameProp : Option String
  typeProp : Option String
  statusProp : Option String
  processedNotes : Option String
  originalAudio : Option String
  tagsProp : Option (List String)
deriving DecidableEq, Repr

/-- `_prepare_project_properties` from the Notion adapter. -/
def _prepare_project_properties (pd : ProjectData) : NotionProperties :=
  { nameProp := pd.name
    typeProp := pd.type
    statusProp := pd.status
    processedNotes := pd.notes
    originalAudio := pd.original_audio
    tagsProp :=
      match pd.tags with
      | some ts => if ts.isEmpty then none else some ts
      | none => none }

/-- The page the store materialises for a create request: a property that was
not sent is read back empty (the `_extract_title`, `_extract_select`,
`_extract_rich_text` and `_extract_multi_select` fallbacks of the adapter). -/
def pageOfProperties (props : NotionProperties) (newId : String) : Project :=
  { id := newId
    name := props.nameProp.getD ""
    type := props.typeProp.getD ""
    status := props.statusProp.getD ""
    notes := props.processedNotes.getD ""
    original_audio := props.originalAudio.getD ""
    tags := props.tagsProp.getD [] }

/-- `create_project` from the Notion adapter: POST the prepared properties;
on success the store gains exactly the one new page, on failure nothing
changes and `none` is reported. -/
def create_project (store : List Project) (pd : ProjectData) (apiOk : Bool)
    (newId : String) : List Project × Option Project :=
  if apiOk then
    let page := pageOfProperties (_prepare_project_properties pd) newId
    (store ++ [page], some page)
  else (store, none)

/-- The replies the handlers produce, abstracting the chat messages edited by
the bot (UI copy is a presentation concern; each constructor stands for one
distinct message template of the source). -/
inductive Reply where
  | clarifyRequest
  | notFound (ident : String)
  | statusChanged (name status reason : String)
  | updateFailed (name : String)
  | createSuccess (name projectType : String)
  | createFailed
  | noProjectsFound
  | projectList (ps : List Project)
  | clarifyOptions (shown : List (Project × Nat))
  | sessionExpired
  | cancelled
  | notesAdded (name : String)
  | notesAddFailed (name : String)
  | invalidSelection
  | callbackError
deriving DecidableEq, Repr

/-- The transcript merge at the top of `_handle_create_project`: a truthy
voice transcription is written into `project_data['original_audio']`. -/
def mergeTranscript (pd : ProjectData) (tr : Option String) : ProjectData :=
  match tr with
  | some t => if t == "" then pd else { pd with original_audio := some t }
  | none => pd

/-- `_handle_create_project` from the main bot class: merge the transcript,
call the store create once, and report success (with the message-level
defaults New Project / Project) or a generic failure. -/
def _handle_create_project (pd : ProjectData) (tr : Option String)
    (store : List Project) (apiOk : Bool) (newId : String) : List Project × Reply :=
  let pd := mergeTranscript pd tr
  let r := create_project store pd apiOk newId
  match r.2 with
  | some _ => (r.1, Reply.createSuccess (pd.name.getD "New Project") (pd.type.getD "Project"))
  | none => (r.1, Reply.createFailed)

/-- `_handle_update_status` from the main bot class: validate the fields,
resolve the identifier by the tiered lookup, then call the status updater —
passing, as the source does, the resolved project's NAME in the position of
the page id.  The reason is only interpolated into the reply text. -/
def _handle_update_status (store : List Project)
    (project_identifier new_status reason : String) (apiOk : Bool) :
    List Project × Reply :=
  if project_identifier == "" || new_status == "" then (store, Reply.clarifyRequest)
  else
    match find_project_by_keywords project_identifier store with
    | none => (store, Reply.notFound project_identifier)
    | some project =>
      let r := update_project_status store project.name new_status apiOk
      if r.2 then (r.1, Reply.statusChanged project.name new_status reason)
      else (r.1, Reply.updateFailed project.name)

/-- `_handle_query_projects` from the main bot class.  The by_status and
by_type branches call `get_projects_by_status` / `get_projects_by_type`,
whose definitions are absent from the provided (abridged) adapter file and
are modelled from the spec as store-side filters.  An empty result is not an
error: it yields the no-projects-found message. -/
def _handle_query_projects (store : List Project) (query_type : String)
    (statusFilter typeFilter : Option String) : Reply :=
  let projects :=
    if query_type == "by_status" then get_projects_by_status store (statusFilter.getD "")
    else if query_type == "by_type" then get_projects_by_type store (typeFilter.getD "")
    else store
  if projects.isEmpty then Reply.noProjectsFound
  else Reply.projectList projects

/-- The per-user pending disambiguation context stored in
`self._pending_contexts[user_id]`. -/
structure PendingCtx where
  intent_analysis : Intent
  original_transcription : Option String
  similar_projects : List (Project × Nat)
deriving DecidableEq, Repr

/-- `_handle_clarify_intent` from the main bot class, for one fixed user whose
`_pending_contexts` entry is `pending`.  `msgHasBot` is the value of the
external check `hasattr(processing_msg, 'bot')` on the transport's message
object; the context is stored only when it is `false` (per the spec's session
manager, storage does happen in the deployed transport).  Empty keywords or an
empty candidate list fall back to the create handler. -/
def _handle_clarify_intent (intent : Intent) (tr : Option String)
    (pending : Option PendingCtx) (store : List Project) (msgHasBot apiOk : Bool)
    (newId : String) : Option PendingCtx × (List Project × Reply) :=
  if intent.search_keywords == "" then
    (pending, _handle_create_project intent.project_data tr store apiOk newId)
  else
    let similar := find_similar_projects intent.search_keywords store 5
    if similar.isEmpty then
      (pending, _handle_create_project intent.project_data tr store apiOk newId)
    else
      let ctx : PendingCtx := ⟨intent, tr, similar⟩
      (if msgHasBot then pending else some ctx,
        (store, Reply.clarifyOptions (similar.take 5)))

/-- The callback payloads of the inline keyboard: the strings `cancel`,
`create_new` and `select_project_<i>` (the index parsed by Python `int`, so it
ranges over all integers). -/
inductive Callback where
  | cancel
  | createNew
  | selectProject (i : Int)
deriving DecidableEq, Repr

/-- Python list indexing `l[i]` for a possibly negative `i`: negative indices
address from the end; out-of-range access raises IndexError, modelled as
`none`. -/
def pyGet {α : Type} (l : List α) (i : Int) : Option α :=
  if 0 ≤ i then l[i.toNat]?
  else if (-i).toNat ≤ l.length then l[l.length - (-i).toNat]? else none

/-- The update-data the selection branch of `handle_callback_query` builds:
the intent's processed notes when truthy, otherwise a generic transcription
note when a truthy transcript exists; the transcript itself goes to
original_audio. -/
def selectionUpdateData (ctx : PendingCtx) : UpdateData :=
  let additionalNotes := ctx.intent_analysis.project_data.notes.getD ""
  { original_audio :=
      if optTruthy ctx.original_transcription then ctx.original_transcription else none
    additional_notes :=
      if !(additionalNotes == "") then some additionalNotes
      else if optTruthy ctx.original_transcription then
        some "Audio transcription added to project"
      else none
    note_type :=
      if !(additionalNotes == "") then some "update"
      else if optTruthy ctx.original_transcription then some "update"
      else none }

/-- `handle_callback_query` from the main bot class, for one fixed user.  No
pending context means the session-expired message and no effect.  Cancel and
create-new consume the context.  A selection with `i < len(candidates)` (the
only bound the source checks) applies the add-notes effect addressed by the
selected candidate's NAME and consumes the context — negative `i` wraps
Python-style; `i` below `-len` raises IndexError, caught by the handler's
generic except with the context retained; `i ≥ len` yields the
invalid-selection message with the context retained. -/
def handle_callback_query (pending : Option PendingCtx) (store : List Project)
    (cb : Callback) (apiOk : Bool) (newId ts : String) :
    Option PendingCtx × (List Project × Reply) :=
  match pending with
  | none => (none, (store, Reply.sessionExpired))
  | some ctx =>
    match cb with
    | Callback.cancel => (none, (store, Reply.cancelled))
    | Callback.createNew =>
      (none, _handle_create_project ctx.intent_analysis.project_data
        ctx.original_transcription store apiOk newId)
    | Callback.selectProject i =>
      if i < (ctx.similar_projects.length : Int) then
        match pyGet ctx.similar_projects i with
        | none => (some ctx, (store, Reply.callbackError))
        | some sel =>
          let r := add_notes_to_project store sel.1.name (selectionUpdateData ctx) ts apiOk
          (none, (r.1, if r.2 then Reply.notesAdded sel.1.name
                       else Reply.notesAddFailed sel.1.name))
      else (some ctx, (store, Reply.invalidSelection))

/-- Unfolded form of the matcher: the empty-store early return coincides with
the general sort-and-truncate expression. -/
theorem find_similar_eq (kw : String) (ps : List Project) (limit : Nat) :
    find_similar_projects kw ps limit
      = (List.insertionSort scoreGE (scoredCandidates ps (keywordsOf kw))).take limit := by
  unfold find_similar_projects
  by_cases h : ps.isEmpty
  · rw [List.isEmpty_iff] at h
    subst h
    simp [scoredCandidates]
  · simp [h]

/-- Membership in the scored candidate list: exactly the store's projects with
positive score, paired with that score. -/
theorem mem_scoredCandidates (x : Project × Nat) (ps : List Project)
    (kws : List String) :
    x ∈ scoredCandidates ps kws
      ↔ x.1 ∈ ps ∧ x.2 = calculateSimilarityScore x.1 kws ∧ 0 < x.2 := by
  constructor
  · intro hx
    rcases List.mem_filterMap.mp hx with ⟨a, ha, he⟩
    by_cases hpos : 0 < calculateSimilarityScore a kws
    · rw [if_pos hpos] at he
      cases he
      exact ⟨ha, rfl, hpos⟩
    · rw [if_neg hpos] at he
      cases he
  · rintro ⟨h1, h2, h3⟩
    refine List.mem_filterMap.mpr ⟨x.1, h1, ?_⟩
    rw [← h2, if_pos h3]

/-- Inserting an element below all strictly-greater scores does not disturb
the relative order of any fixed score class. -/
theorem filter_score_orderedInsert (c : Nat) (a : Project × Nat)
    (l : List (Project × Nat)) :
    (List.orderedInsert scoreGE a l).filter (fun x => x.2 == c)
      = ((a :: l).filter (fun x => x.2 == c)) := by
  induction l with
  | nil => rfl
  | cons b t ih =>
    by_cases h : scoreGE a b
    · rw [List.orderedInsert, if_pos h]
    · rw [List.orderedInsert, if_neg h]
      have hab : ¬ ((b.2 == c) = true ∧ (a.2 == c) = true) := by
        rintro ⟨hb, ha⟩
        exact h (Nat.le_of_eq ((eq_of_beq hb).trans (eq_of_beq ha).symm))
      cases hA : (a.2 == c) with
      | true =>
        cases hB : (b.2 == c) with
        | true => exact absurd ⟨hB, hA⟩ hab
        | false => simp [List.filter_cons, hA, hB, ih]
      | false =>
        cases hB : (b.2 == c) with
        | true => simp [List.filter_cons, hA, hB, ih]
        | false => simp [List.filter_cons, hA, hB, ih]

/-- Stability of the matcher's sort: every score class keeps its original
relative order. -/
theorem filter_score_insertionSort (c : Nat) (l : List (Project × Nat)) :
    (List.insertionSort scoreGE l).filter (fun x => x.2 == c)
      = l.filter (fun x => x.2 == c) := by
  induction l with
  | nil => rfl
  | cons a t ih =>
    simp only [List.insertionSort]
    rw [filter_score_orderedInsert]
    simp only [List.filter_cons, ih]

/-- C1: `find_similar_projects` splits the keyword string on whitespace into
lowercase keywords, scores each project by the weighted keyword contributions
of `_calculate_similarity_score`, and returns exactly the positively-scored
projects, sorted by descending score, stably on ties (every score class keeps
its store order), truncated to at most `limit` entries: the result is the
`limit`-prefix of a list `L` that is a permutation of the positively-scored
store sublist, is sorted descending, and filters identically to it on every
score class. -/
theorem find_similar_projects_spec (kw : String) (projects : List Project)
    (limit : Nat) :
    (find_similar_projects kw projects limit).length ≤ limit
    ∧ (find_similar_projects kw projects limit).all
        (fun x => decide (0 < x.2) && decide (x.1 ∈ projects)
          && (x.2 == calculateSimilarityScore x.1 (keywordsOf kw))) = true
    ∧ List.Pairwise scoreGE (find_similar_projects kw projects limit)
    ∧ ∃ L : List (Project × Nat),
        find_similar_projects kw projects limit = L.take limit
        ∧ L.Perm (scoredCandidates projects (keywordsOf kw))
        ∧ List.Pairwise scoreGE L
        ∧ ∀ c : Nat, L.filter (fun x => x.2 == c)
            = (scoredCandidates projects (keywordsOf kw)).filter (fun x => x.2 == c) := by
  have hEq := find_similar_eq kw projects limit
  have hSorted : List.Pairwise scoreGE
      (List.insertionSort scoreGE (scoredCandidates projects (keywordsOf kw))) :=
    List.sorted_insertionSort scoreGE _
  have hPerm := List.perm_insertionSort scoreGE
    (scoredCandidates projects (keywordsOf kw))
  refine ⟨?_, ?_, ?_, ?_⟩
  · rw [hEq]
    exact List.length_take_le _ _
  · rw [List.all_eq_true]
    intro x hx
    rw [hEq] at hx
    have hx2 : x ∈ scoredCandidates projects (keywordsOf kw) :=
      hPerm.mem_iff.mp (List.mem_of_mem_take hx)
    rcases (mem_scoredCandidates x projects (keywordsOf kw)).mp hx2 with ⟨h1, h2, h3⟩
    simp [h1, ← h2, h3]
  · rw [hEq]
    exact List.Pairwise.sublist (List.take_sublist _ _) hSorted
  · exact ⟨_, hEq, hPerm, hSorted, fun c => filter_score_insertionSort c _⟩

/-- C2: the tiered lookup equals the priority chain first-exact-name, else
first name-substring, else first type-substring, else first notes-substring,
else nothing; and whenever some stored project's lowercased name equals the
lowercased identifier, the result is the first such exact match — an exact
name match always wins over any partial match for the same identifier. -/
theorem find_project_by_keywords_spec (kw : String) (ps : List Project) :
    (find_project_by_keywords kw ps
      = ((ps.find? (fun p => strLower p.name == strLower kw)).or
        ((ps.find? (fun p => pyIn (strLower kw) (strLower p.name))).or
          ((ps.find? (fun p => pyIn (strLower kw) (strLower p.type))).or
            (ps.find? (fun p => pyIn (strLower kw) (strLower p.notes)))))))
    ∧ ∀ p, p ∈ ps → strLower p.name = strLower kw →
        find_project_by_keywords kw ps
          = ps.find? (fun p => strLower p.name == strLower kw) := by
  constructor
  · unfold find_project_by_keywords
    cases h1 : ps.find? (fun p => strLower p.name == strLower kw) <;>
      cases h2 : ps.find? (fun p => pyIn (strLower kw) (strLower p.name)) <;>
        cases h3 : ps.find? (fun p => pyIn (strLower kw) (strLower p.type)) <;>
          simp [Option.or, h1, h2, h3]
  · intro p hp hname
    have hsome : (ps.find? (fun q => strLower q.name == strLower kw)).isSome :=
      List.find?_isSome.mpr ⟨p, hp, beq_iff_eq.mpr hname⟩
    rcases Option.isSome_iff_exists.mp hsome with ⟨q, hq⟩
    unfold find_project_by_keywords
    dsimp only
    rw [hq]

/-- Store with two song projects used as concrete witness input. -/
def moonStore : List Project :=
  [⟨"m0", "Moonlight", "Song", "Idea", "", "", []⟩,
   ⟨"m1", "Moon Song", "Song", "Idea", "", "", []⟩]

/-- C2 witness: on a concrete store holding an exact-name match for the
identifier, the lookup returns the first exact match. -/
theorem find_project_by_keywords_spec_witness :
    (⟨"m1", "Moon Song", "Song", "Idea", "", "", []⟩ : Project) ∈ moonStore
    ∧ strLower (Project.name ⟨"m1", "Moon Song", "Song", "Idea", "", "", []⟩)
        = strLower "Moon Song"
    ∧ find_project_by_keywords "Moon Song" moonStore
        = moonStore.find? (fun p => strLower p.name == strLower "Moon Song") :=
  ⟨by decide, by decide,
    (find_project_by_keywords_spec "Moon Song" moonStore).2
      ⟨"m1", "Moon Song", "Song", "Idea", "", "", []⟩ (by decide) (by decide)⟩

/-- A status-only page patch leaves every projection that ignores the status
field unchanged on the mapped store. -/
theorem map_field_setStatus {β : Type} (f : Project → β)
    (hf : ∀ p s, f { p with status := s } = f p)
    (store : List Project) (pid st : String) :
    (store.map (fun p => if p.id == pid then { p with status := st } else p)).map f
      = store.map f := by
  induction store with
  | nil => rfl
  | cons p t ih =>
    by_cases h : (p.id == pid) = true
    · simp only [List.map_cons, if_pos h, hf, ih]
    · simp only [List.map_cons, if_neg h, ih]

/-- The status updater never touches notes or original audio. -/
theorem update_project_status_preserves_text (store : List Project)
    (pid st : String) (apiOk : Bool) :
    (update_project_status store pid st apiOk).1.map Project.notes
        = store.map Project.notes
    ∧ (update_project_status store pid st apiOk).1.map Project.original_audio
        = store.map Project.original_audio := by
  unfold update_project_status
  split
  · exact ⟨map_field_setStatus Project.notes (fun _ _ => rfl) store pid st,
      map_field_setStatus Project.original_audio (fun _ _ => rfl) store pid st⟩
  · exact ⟨rfl, rfl⟩

/-- C3 (amended): with both fields present, the update_status handler resolves
the identifier by the tiered lookup and, on a hit, runs the status patch keyed
by the resolved project's NAME (so it mutates a page only when some page id
equals that name, and otherwise reports failure); the reason is never appended
as a note — notes and original audio are unchanged in every case — and a
failed resolution reports not-found with no mutation. -/
theorem update_status_amended (store : List Project) (ident st reason : String)
    (apiOk : Bool) (hid : ident ≠ "") (hst : st ≠ "") :
    (find_project_by_keywords ident store = none →
      _handle_update_status store ident st reason apiOk = (store, Reply.notFound ident))
    ∧ (∀ p, find_project_by_keywords ident store = some p →
        _handle_update_status store ident st reason apiOk
          = ((update_project_status store p.name st apiOk).1,
             if (update_project_status store p.name st apiOk).2
             then Reply.statusChanged p.name st reason
             else Reply.updateFailed p.name))
    ∧ (_handle_update_status store ident st reason apiOk).1.map Project.notes
        = store.map Project.notes
    ∧ (_handle_update_status store ident st reason apiOk).1.map Project.original_audio
        = store.map Project.original_audio := by
  have hguard : (ident == "" || st == "") = false := by simp [hid, hst]
  refine ⟨?_, ?_, ?_, ?_⟩
  · intro hf
    simp [_handle_update_status, hguard, hf]
  · intro p hf
    by_cases hr : (update_project_status store p.name st apiOk).2 = true <;>
      simp [_handle_update_status, hguard, hf, hr]
  · cases hf : find_project_by_keywords ident store with
    | none => simp [_handle_update_status, hguard, hf]
    | some p =>
      by_cases hr : (update_project_status store p.name st apiOk).2 = true <;>
        simp [_handle_update_status, hguard, hf, hr,
          (update_project_status_preserves_text store p.name st apiOk).1]
  · cases hf : find_project_by_keywords ident store with
    | none => simp [_handle_update_status, hguard, hf]
    | some p =>
      by_cases hr : (update_project_status store p.name st apiOk).2 = true <;>
        simp [_handle_update_status, hguard, hf, hr,
          (update_project_status_preserves_text store p.name st apiOk).2]

/-- Store with one project whose opaque page id differs from its name, used
for the update_status counterexample and witness. -/
def oceanStore : List Project :=
  [⟨"page-1", "Ocean", "Song", "Idea", "", "", []⟩]

/-- C3 counterexample: an update_status intent for the stored project Ocean
with a reason present leaves the store completely unchanged — no status is
updated (the patch is addressed by the project's name, which no page id
carries) and no reason note is appended; the handler reports failure instead
of performing the claimed mutation. -/
theorem update_status_cex :
    _handle_update_status oceanStore "Ocean" "Completed" "done" true
      = (oceanStore, Reply.updateFailed "Ocean")
    ∧ (_handle_update_status oceanStore "Ocean" "Completed" "done" true).1.map
        Project.status ≠ ["Completed"] := by
  constructor
  · decide
  · decide

/-- C3 witness: the amended description evaluated on the concrete Ocean
store. -/
theorem update_status_amended_witness :
    find_project_by_keywords "Ocean" oceanStore
      = some ⟨"page-1", "Ocean", "Song", "Idea", "", "", []⟩
    ∧ _handle_update_status oceanStore "Ocean" "Completed" "done" true
        = ((update_project_status oceanStore "Ocean" "Completed" true).1,
           if (update_project_status oceanStore "Ocean" "Completed" true).2
           then Reply.statusChanged "Ocean" "Completed" "done"
           else Reply.updateFailed "Ocean") :=
  ⟨by decide,
    (update_status_amended oceanStore "Ocean" "Completed" "done" true
        (by decide) (by decide)).2.1
      ⟨"page-1", "Ocean", "Song", "Idea", "", "", []⟩ (by decide)⟩

/-- A successful tiered lookup returns a member of the store. -/
theorem find_project_mem (kw : String) (ps : List Project) (p : Project)
    (h : find_project_by_keywords kw ps = some p) : p ∈ ps := by
  unfold find_project_by_keywords at h
  dsimp only at h
  cases h1 : ps.find? (fun q => strLower q.name == strLower kw) with
  | some q =>
    rw [h1] at h
    dsimp only at h
    cases h
    exact List.mem_of_find?_eq_some h1
  | none =>
    rw [h1] at h
    dsimp only at h
    cases h2 : ps.find? (fun q => pyIn (strLower kw) (strLower q.name)) with
    | some q =>
      rw [h2] at h
      dsimp only at h
      cases h
      exact List.mem_of_find?_eq_some h2
    | none =>
      rw [h2] at h
      dsimp only at h
      cases h3 : ps.find? (fun q => pyIn (strLower kw) (strLower q.type)) with
      | some q =>
        rw [h3] at h
        dsimp only at h
        cases h
        exact List.mem_of_find?_eq_some h3
      | none =>
        rw [h3] at h
        dsimp only at h
        exact List.mem_of_find?_eq_some h

/-- C6: an add-notes operation on a project the identifier resolves succeeds,
and the resolved project's stored notes afterwards are exactly the previous
notes followed by the blank-line separator and the new timestamped
`[timestamp] NoteType: text` segment (just the segment when the previous notes
were empty) — the old notes are a prefix of the new ones — while
original_audio is likewise only ever extended; every other project is left
untouched. -/
theorem add_notes_monotonic (store : List Project) (ident text nt ts : String)
    (audio : Option String) (p : Project)
    (hfind : find_project_by_keywords ident store = some p) :
    (add_notes_to_project store ident ⟨audio, some text, some nt⟩ ts true).2 = true
    ∧ (∃ q, q ∈ (add_notes_to_project store ident ⟨audio, some text, some nt⟩ ts true).1
        ∧ q.id = p.id
        ∧ q.notes = (if p.notes == ""
            then "[" ++ ts ++ "] " ++ pyTitle nt ++ ": " ++ text
            else p.notes ++ "\n\n" ++ ("[" ++ ts ++ "] " ++ pyTitle nt ++ ": " ++ text))
        ∧ (∃ t1, q.notes = p.notes ++ t1)
        ∧ (∃ t2, q.original_audio = p.original_audio ++ t2))
    ∧ (∀ q, q ∈ (add_notes_to_project store ident ⟨audio, some text, some nt⟩ ts true).1
        → q.id = p.id ∨ q ∈ store) := by
  have hmem : p ∈ store := find_project_mem ident store p hfind
  have hseg1 : ∀ s : String, (if (s == "") = true
      then "[" ++ ts ++ "] " ++ pyTitle nt ++ ": " ++ text
      else s ++ "\n\n" ++ ("[" ++ ts ++ "] " ++ pyTitle nt ++ ": " ++ text))
      = s ++ (if (s == "") = true
        then "[" ++ ts ++ "] " ++ pyTitle nt ++ ": " ++ text
        else "\n\n" ++ ("[" ++ ts ++ "] " ++ pyTitle nt ++ ": " ++ text)) := by
    intro s
    by_cases hs : (s == "") = true
    · rw [if_pos hs, if_pos hs, eq_of_beq hs]
      rfl
    · rw [if_neg hs, if_neg hs, String.append_assoc]
  cases audio with
  | none =>
    simp only [add_notes_to_project, hfind]
    refine ⟨rfl, ⟨{ p with notes := if p.notes == ""
        then "[" ++ ts ++ "] " ++ pyTitle nt ++ ": " ++ text
        else p.notes ++ "\n\n" ++ ("[" ++ ts ++ "] " ++ pyTitle nt ++ ": " ++ text) },
      ?_, rfl, rfl, ⟨_, hseg1 p.notes⟩, ⟨"", by simp⟩⟩, ?_⟩
    · have := List.mem_map_of_mem (fun q =>
        if q.id == p.id then
          { q with
            original_audio := (Option.getD none q.original_audio),
            notes := Option.getD (some (if p.notes == ""
              then "[" ++ ts ++ "] " ++ pyTitle nt ++ ": " ++ text
              else p.notes ++ "\n\n"
                ++ ("[" ++ ts ++ "] " ++ pyTitle nt ++ ": " ++ text))) q.notes }
        else q) hmem
      simpa using this
    · intro q hq
      rcases List.mem_map.mp hq with ⟨x, hx, hxq⟩
      by_cases hid : (x.id == p.id) = true
      · left
        rw [← hxq]
        simp [hid]
        exact eq_of_beq hid
      · right
        rw [← hxq]
        simp [hid]
        exact hx
  | some na =>
    simp only [add_notes_to_project, hfind]
    refine ⟨rfl, ⟨{ p with
        original_audio := if p.original_audio == "" then na
          else p.original_audio ++ "\n\n--- New Audio ---\n" ++ na,
        notes := if p.notes == ""
          then "[" ++ ts ++ "] " ++ pyTitle nt ++ ": " ++ text
          else p.notes ++ "\n\n" ++ ("[" ++ ts ++ "] " ++ pyTitle nt ++ ": " ++ text) },
      ?_, rfl, rfl, ⟨_, hseg1 p.notes⟩, ?_⟩, ?_⟩
    · have := List.mem_map_of_mem (fun q =>
        if q.id == p.id then
          { q with
            original_audio := Option.getD (some (if p.original_audio == "" then na
              else p.original_audio ++ "\n\n--- New Audio ---\n" ++ na)) q.original_audio,
            notes := Option.getD (some (if p.notes == ""
              then "[" ++ ts ++ "] " ++ pyTitle nt ++ ": " ++ text
              else p.notes ++ "\n\n"
                ++ ("[" ++ ts ++ "] " ++ pyTitle nt ++ ": " ++ text))) q.notes }
        else q) hmem
      simpa using this
    · by_cases ha : (p.original_audio == "") = true
      · refine ⟨na, ?_⟩
        rw [if_pos ha, eq_of_beq ha]
        rfl
      · refine ⟨"\n\n--- New Audio ---\n" ++ na, ?_⟩
        rw [if_neg ha]
        exact String.append_assoc _ _ _
    · intro q hq
      rcases List.mem_map.mp hq with ⟨x, hx, hxq⟩
      by_cases hid : (x.id == p.id) = true
      · left
        rw [← hxq]
        simp [hid]
        exact eq_of_beq hid
      · right
        rw [← hxq]
        simp [hid]
        exact hx

/-- Store with one project carrying existing notes, the Scenario C input. -/
def oceanNotesStore : List Project :=
  [⟨"pg-9", "Ocean", "Song", "Idea", "v1", "", []⟩]

/-- C6 witness: Scenario C — adding the note new verse to the project Ocean
with prior notes v1 succeeds and the patched notes start with v1. -/
theorem add_notes_monotonic_witness :
    find_project_by_keywords "Ocean" oceanNotesStore
      = some ⟨"pg-9", "Ocean", "Song", "Idea", "v1", "", []⟩
    ∧ (add_notes_to_project oceanNotesStore "Ocean"
        ⟨none, some "new verse", some "update"⟩ "2024-05-01 10:00" true).2 = true :=
  ⟨by decide,
    (add_notes_monotonic oceanNotesStore "Ocean" "new verse" "update"
        "2024-05-01 10:00" none ⟨"pg-9", "Ocean", "Song", "Idea", "v1", "", []⟩
        (by decide)).1⟩

/-- The flag archive_project returns is the status patch's outcome alone. -/
theorem archive_snd (store : List Project) (ident reason ts : String)
    (aS aN : Bool) :
    (archive_project store ident reason ts aS aN).2
      = (match find_project_by_keywords ident store with
         | none => false
         | some project => (update_project_status store project.id "Archived" aS).2) := by
  unfold archive_project
  cases h : find_project_by_keywords ident store with
  | none => rfl
  | some project =>
    dsimp only
    split <;> rfl

/-- C10: archive_project's returned result reflects only the status-update
patch — once the identifier resolves, a successful Archived patch yields a
success result even when the follow-up reason-note append fails, and in
general the returned flag never depends on the note request's outcome. -/
theorem archive_result_ignores_note (store : List Project)
    (ident reason ts : String) (p : Project)
    (hfind : find_project_by_keywords ident store = some p) :
    (∀ apiNotesOk : Bool,
      (archive_project store ident reason ts true apiNotesOk).2 = true)
    ∧ (∀ apiStatusOk apiNotesOk1 apiNotesOk2 : Bool,
      (archive_project store ident reason ts apiStatusOk apiNotesOk1).2
        = (archive_project store ident reason ts apiStatusOk apiNotesOk2).2) := by
  have hmem : p ∈ store := find_project_mem ident store p hfind
  have hany : (store.any (fun q => q.id == p.id)) = true :=
    List.any_eq_true.mpr ⟨p, hmem, by simp⟩
  have hupd : (update_project_status store p.id "Archived" true).2 = true := by
    unfold update_project_status
    rw [if_pos (by simp [hany])]
  constructor
  · intro b
    rw [archive_snd, hfind]
    exact hupd
  · intro aS b1 b2
    rw [archive_snd, archive_snd]

/-- Store with one project used for the archive witness. -/
def harborStore : List Project :=
  [⟨"ph-1", "Harbor", "Song", "Idea", "", "", []⟩]

/-- C10 witness: archiving Harbor with a reason returns success even when the
follow-up note request fails. -/
theorem archive_result_ignores_note_witness :
    find_project_by_keywords "Harbor" harborStore
      = some ⟨"ph-1", "Harbor", "Song", "Idea", "", "", []⟩
    ∧ (archive_project harborStore "Harbor" "season over" "ts0" true false).2 = true :=
  ⟨by decide,
    (archive_result_ignores_note harborStore "Harbor" "season over" "ts0"
        ⟨"ph-1", "Harbor", "Song", "Idea", "", "", []⟩ (by decide)).1 false⟩

/-- C7 (amended): the create handler merges a truthy transcript into
project_data's original_audio and calls the store create exactly once with
exactly the provided fields — omitted fields are sent absent and stored
empty, so no default status Idea and no non-empty default name is applied to
the record (the defaults New Project and Project appear only in the success
message); a failed store call leaves the store unchanged with a generic
failure reply and no partial state. -/
theorem create_project_amended (pd : ProjectData) (tr : Option String)
    (store : List Project) (newId : String) :
    _handle_create_project pd tr store true newId
      = (store ++ [pageOfProperties
            (_prepare_project_properties (mergeTranscript pd tr)) newId],
         Reply.createSuccess ((mergeTranscript pd tr).name.getD "New Project")
           ((mergeTranscript pd tr).type.getD "Project"))
    ∧ _handle_create_project pd tr store false newId = (store, Reply.createFailed) := by
  exact ⟨rfl, rfl⟩

/-- C7 counterexample: Scenario B — creating from
project_data = {name Ocean, type Album} stores a record whose status is the
empty string, not the claimed default Idea. -/
theorem create_project_cex :
    (_handle_create_project ⟨some "Ocean", some "Album", none, none, none, none⟩
        none [] true "id-1").1.map Project.status = [""]
    ∧ ¬ ((_handle_create_project ⟨some "Ocean", some "Album", none, none, none, none⟩
        none [] true "id-1").1.map Project.status = ["Idea"]) := by
  exact ⟨by decide, by decide⟩

/-- C5: query_projects routing — by_status yields the status-filtered store
subset, by_type the type-filtered subset, any other query type all projects,
with no matcher involved; an empty result is not an error and yields the
no-projects-found message (for an empty store every query type does). -/
theorem query_projects_spec (store : List Project) (stf tpf : Option String)
    (qt : String) :
    (_handle_query_projects store "by_status" stf tpf
      = (if (get_projects_by_status store (stf.getD "")).isEmpty
         then Reply.noProjectsFound
         else Reply.projectList (get_projects_by_status store (stf.getD ""))))
    ∧ (_handle_query_projects store "by_type" stf tpf
      = (if (get_projects_by_type store (tpf.getD "")).isEmpty
         then Reply.noProjectsFound
         else Reply.projectList (get_projects_by_type store (tpf.getD ""))))
    ∧ (qt ≠ "by_status" → qt ≠ "by_type" →
        _handle_query_projects store qt stf tpf
          = (if store.isEmpty then Reply.noProjectsFound
             else Reply.projectList store))
    ∧ _handle_query_projects [] qt stf tpf = Reply.noProjectsFound := by
  refine ⟨rfl, rfl, ?_, ?_⟩
  · intro h1 h2
    have hb1 : (qt == "by_status") = false := beq_eq_false_iff_ne.mpr h1
    have hb2 : (qt == "by_type") = false := beq_eq_false_iff_ne.mpr h2
    simp [_handle_query_projects, hb1, hb2]
  · by_cases h1 : (qt == "by_status") = true
    · simp [_handle_query_projects, h1, get_projects_by_status]
    · by_cases h2 : (qt == "by_type") = true
      · simp [_handle_query_projects, h1, h2, get_projects_by_type]
      · simp [_handle_query_projects, h1, h2]

/-- C5 witness: the generic branch evaluated at the query type all on an
empty store yields the no-projects-found message. -/
theorem query_projects_spec_witness :
    (("all" : String) ≠ "by_status" ∧ ("all" : String) ≠ "by_type")
    ∧ _handle_query_projects [] "all" none none
      = (if ([] : List Project).isEmpty then Reply.noProjectsFound
         else Reply.projectList []) :=
  ⟨⟨by decide, by decide⟩,
    (query_projects_spec [] none none "all").2.2.1 (by decide) (by decide)⟩

/-- C8: a selection, create-new or cancel callback arriving with no pending
disambiguation for the user (already consumed, already cancelled or never
created) performs no store mutation, never double-applies an effect, and
replies with the session-expired message; in particular a second cancel sent
right after the first finds the cleared state and safely reports expiry with
the store untouched. -/
theorem callback_no_pending_spec (store : List Project) (cb : Callback)
    (apiOk : Bool) (newId ts : String) (ctx : PendingCtx) :
    handle_callback_query none store cb apiOk newId ts
      = (none, (store, Reply.sessionExpired))
    ∧ handle_callback_query (some ctx) store Callback.cancel apiOk newId ts
      = (none, (store, Reply.cancelled))
    ∧ handle_callback_query
        (handle_callback_query (some ctx) store Callback.cancel apiOk newId ts).1
        (handle_callback_query (some ctx) store Callback.cancel apiOk newId ts).2.1
        Callback.cancel apiOk newId ts
      = (none, (store, Reply.sessionExpired)) := by
  exact ⟨rfl, rfl, rfl⟩

/-- C9 (amended): while a disambiguation is pending, a selection index at or
above the candidate count reports the invalid-selection message, mutates
nothing and keeps the pending state for a corrected retry; a negative index,
however, is not rejected: Python list indexing applies, so an index in
[-len, 0) is treated as a valid pick from the end of the candidate list,
and an index below -len raises IndexError, surfacing as the generic error
reply with the pending state kept. -/
theorem invalid_selection_amended (ctx : PendingCtx) (store : List Project)
    (i : Int) (apiOk : Bool) (newId ts : String) :
    ((ctx.similar_projects.length : Int) ≤ i →
      handle_callback_query (some ctx) store (Callback.selectProject i) apiOk newId ts
        = (some ctx, (store, Reply.invalidSelection)))
    ∧ (i < -(ctx.similar_projects.length : Int) →
      handle_callback_query (some ctx) store (Callback.selectProject i) apiOk newId ts
        = (some ctx, (store, Reply.callbackError))) := by
  constructor
  · intro hge
    simp only [handle_callback_query]
    rw [if_neg (by omega)]
  · intro hlt
    have hneg : ¬ (0 ≤ i) := by omega
    have hlen : ¬ ((-i).toNat ≤ ctx.similar_projects.length) := by omega
    simp only [handle_callback_query, pyGet]
    rw [if_pos (by omega), if_neg hneg, if_neg hlen]

/-- Store with a single candidate project for the selection theorems. -/
def soloStore : List Project :=
  [⟨"id-s", "Solo Song", "Song", "Idea", "", "", []⟩]

/-- Pending context holding the one candidate matched by the keyword solo. -/
def soloCtx : PendingCtx :=
  ⟨⟨"solo", ⟨none, none, none, some "cex note", none, none⟩⟩, none,
    find_similar_projects "solo" soloStore 5⟩

/-- C9 counterexample: with one pending candidate, the selection callback
carrying index -1 violates the claimed bound 0 ≤ i yet is not rejected: the
pending state is cleared, the store is mutated, and the notes-added success
message is sent instead of the claimed invalid-selection reply with unchanged
state. -/
theorem invalid_selection_cex :
    (handle_callback_query (some soloCtx) soloStore (Callback.selectProject (-1))
        true "nid" "2024-01-01 00:00").1 = none
    ∧ (handle_callback_query (some soloCtx) soloStore (Callback.selectProject (-1))
        true "nid" "2024-01-01 00:00").2.2 = Reply.notesAdded "Solo Song"
    ∧ (handle_callback_query (some soloCtx) soloStore (Callback.selectProject (-1))
        true "nid" "2024-01-01 00:00").2.1 ≠ soloStore := by
  exact ⟨by decide, by decide, by decide⟩

/-- C9 witness: the amended branches evaluated concretely — index 7 with one
candidate reports invalid-selection keeping the state, and index -9 yields
the generic error reply keeping the state. -/
theorem invalid_selection_amended_witness :
    ((soloCtx.similar_projects.length : Int) ≤ 7
      ∧ handle_callback_query (some soloCtx) soloStore (Callback.selectProject 7)
          true "nid" "ts0" = (some soloCtx, (soloStore, Reply.invalidSelection)))
    ∧ ((-9 : Int) < -(soloCtx.similar_projects.length : Int)
      ∧ handle_callback_query (some soloCtx) soloStore (Callback.selectProject (-9))
          true "nid" "ts0" = (some soloCtx, (soloStore, Reply.callbackError))) :=
  ⟨⟨by decide,
      (invalid_selection_amended soloCtx soloStore 7 true "nid" "ts0").1 (by decide)⟩,
    ⟨by decide,
      (invalid_selection_amended soloCtx soloStore (-9) true "nid" "ts0").2 (by decide)⟩⟩

/-- C4 (amended): with non-empty search keywords and at least one similarity
candidate, the clarify handler stores the pending context {intent, transcript,
candidates} (the transport's message object carries no plain bot attribute, so
the storage guard passes) and presents the up-to-5 candidate options together
with the create-new and cancel buttons, mutating nothing; a subsequent
selection of a valid candidate index clears the pending state and applies the
add-notes effect — built from the intent's notes, or the generic
audio-transcription note when only a truthy transcript exists — addressed by
the tiered keyword lookup on the SELECTED CANDIDATE'S NAME, which is the
selected candidate itself whenever no earlier store entry shares its
lowercased name, but can be a different project when names collide. -/
theorem clarify_flow_amended :
    (∀ (intent : Intent) (tr : Option String) (pending : Option PendingCtx)
       (store : List Project) (apiOk : Bool) (newId : String),
      (intent.search_keywords == "") = false →
      (find_similar_projects intent.search_keywords store 5).isEmpty = false →
      _handle_clarify_intent intent tr pending store false apiOk newId
        = (some ⟨intent, tr, find_similar_projects intent.search_keywords store 5⟩,
           (store, Reply.clarifyOptions
             ((find_similar_projects intent.search_keywords store 5).take 5))))
    ∧ (∀ (ctx : PendingCtx) (store : List Project) (i : Int) (sel : Project × Nat)
         (apiOk : Bool) (newId ts : String),
        0 ≤ i →
        ctx.similar_projects[i.toNat]? = some sel →
        handle_callback_query (some ctx) store (Callback.selectProject i) apiOk newId ts
          = (none,
             ((add_notes_to_project store sel.1.name (selectionUpdateData ctx) ts apiOk).1,
              if (add_notes_to_project store sel.1.name (selectionUpdateData ctx) ts apiOk).2
              then Reply.notesAdded sel.1.name
              else Reply.notesAddFailed sel.1.name))) := by
  constructor
  · intro intent tr pending store apiOk newId hkw hsim
    simp [_handle_clarify_intent, hkw, hsim]
  · intro ctx store i sel apiOk newId ts h0 hsel
    have hlt : i.toNat < ctx.similar_projects.length :=
      (List.getElem?_eq_some_iff.mp hsel).1
    have hlt2 : i < (ctx.similar_projects.length : Int) := by omega
    simp only [handle_callback_query, pyGet]
    rw [if_pos hlt2, if_pos h0, hsel]

/-- Store with two projects sharing the name Twin, for the selection-target
counterexample. -/
def twinStore : List Project :=
  [⟨"id-a", "Twin", "Song", "Idea", "na", "", []⟩,
   ⟨"id-b", "Twin", "Song", "Idea", "nb", "", []⟩]

/-- Pending context produced by clarifying the keyword twin over that store:
both projects are candidates, in store order. -/
def twinCtx : PendingCtx :=
  ⟨⟨"twin", ⟨none, none, none, some "extra note", none, none⟩⟩, none,
    find_similar_projects "twin" twinStore 5⟩

/-- C4 counterexample: selecting candidate index 1 (the second Twin, notes
nb) appends the note to the FIRST store project named Twin instead — the
selected candidate's own notes are unchanged, contradicting the claim that
the note is appended to the selected candidate. -/
theorem clarify_selection_cex :
    (handle_callback_query (some twinCtx) twinStore (Callback.selectProject 1)
        true "nid" "2024-01-01 00:00").2.1.map Project.notes
      = ["na\n\n[2024-01-01 00:00] Update: extra note", "nb"]
    ∧ (handle_callback_query (some twinCtx) twinStore (Callback.selectProject 1)
        true "nid" "2024-01-01 00:00").1 = none := by
  exact ⟨by decide, by decide⟩

/-- Store containing the single Scenario D project. -/
def mountainStore : List Project :=
  [⟨"mr-1", "Mountain Retreat", "Retreat", "Idea", "", "", []⟩]

/-- The Scenario D clarify intent carrying the keyword retreat. -/
def retreatIntent : Intent :=
  ⟨"retreat", ⟨none, none, none, some "planning note", none, none⟩⟩

/-- The pending context Scenario D stores: the one Mountain Retreat
candidate. -/
def retreatCtx : PendingCtx :=
  ⟨retreatIntent, none, find_similar_projects "retreat" mountainStore 5⟩

/-- C4 witness: Scenario D — clarifying retreat over the Mountain Retreat
store enters the pending state with that one candidate, and selecting index 0
clears the state and applies the add-notes effect addressed by the candidate
name. -/
theorem clarify_flow_amended_witness :
    ((retreatIntent.search_keywords == "") = false
      ∧ (find_similar_projects "retreat" mountainStore 5).isEmpty = false
      ∧ _handle_clarify_intent retreatIntent none none mountainStore false true "nid"
        = (some ⟨retreatIntent, none, find_similar_projects "retreat" mountainStore 5⟩,
           (mountainStore, Reply.clarifyOptions
             ((find_similar_projects "retreat" mountainStore 5).take 5))))
    ∧ ((0 : Int) ≤ 0
      ∧ retreatCtx.similar_projects[(0 : Int).toNat]?
        = some (⟨"mr-1", "Mountain Retreat", "Retreat", "Idea", "", "", []⟩, 27)
      ∧ handle_callback_query (some retreatCtx) mountainStore
          (Callback.selectProject 0) true "nid" "ts0"
        = (none,
           ((add_notes_to_project mountainStore "Mountain Retreat"
              (selectionUpdateData retreatCtx) "ts0" true).1,
            if (add_notes_to_project mountainStore "Mountain Retreat"
                (selectionUpdateData retreatCtx) "ts0" true).2
            then Reply.notesAdded "Mountain Retreat"
            else Reply.notesAddFailed "Mountain Retreat"))) :=
  ⟨⟨by decide, by decide,
      clarify_flow_amended.1 retreatIntent none none mountainStore true "nid"
        (by decide) (by decide)⟩,
    ⟨by decide, by decide,
      clarify_flow_amended.2 retreatCtx mountainStore 0
        (⟨"mr-1", "Mountain Retreat", "Retreat", "Idea", "", "", []⟩, 27) true "nid" "ts0"
        (by decide) (by decide)⟩⟩
